import Mathlib

/-!
Shallow embedding of the core of the stock-agent repository
(src/agent.py with its older variant src/backup.py): the RSI indicator,
the dip-in-uptrend signal detector, the historical backtest, the option
candidate selector, and the notification step of the scan loop.

Prices and indicator values are mathematical rationals.  Where the Python
code can produce non-finite floats (the pandas division `gain / loss` in
`calculate_rsi` yields infinity or NaN when `loss` is zero) we use the
explicit type `PF` below, which adjoins the three non-finite IEEE values
to the rationals and implements the arithmetic rules pandas applies
elementwise (no exception is ever raised; 0/0 is NaN, x/0 for x > 0 is
+infinity, any operation with a NaN operand is NaN).  Signed zero never
matters here because every divisor in the embedded code is a rolling mean
of non-negative numbers.
-/

set_option maxRecDepth 40000

namespace StockAgent

/-- Pandas/IEEE float value as produced by the embedded arithmetic:
a finite rational, one of the two infinities, or NaN. -/
inductive PF where
  | fin (q : ℚ)
  | pinf
  | ninf
  | nan
  deriving DecidableEq, Repr

namespace PF

/-- Elementwise pandas addition on `PF` values. -/
def add : PF → PF → PF
  | fin a, fin b => fin (a + b)
  | fin _, pinf => pinf
  | pinf, fin _ => pinf
  | fin _, ninf => ninf
  | ninf, fin _ => ninf
  | pinf, pinf => pinf
  | ninf, ninf => ninf
  | pinf, ninf => nan
  | ninf, pinf => nan
  | nan, _ => nan
  | _, nan => nan

/-- Elementwise pandas subtraction on `PF` values. -/
def sub : PF → PF → PF
  | fin a, fin b => fin (a - b)
  | fin _, pinf => ninf
  | pinf, fin _ => pinf
  | fin _, ninf => pinf
  | ninf, fin _ => ninf
  | pinf, pinf => nan
  | ninf, ninf => nan
  | pinf, ninf => pinf
  | ninf, pinf => ninf
  | nan, _ => nan
  | _, nan => nan

/-- Elementwise pandas division on `PF` values: 0/0 is NaN, x/0 keeps the
sign of x as an infinity, finite/infinite is 0, infinite/infinite is NaN. -/
def div : PF → PF → PF
  | fin a, fin b =>
      if b = 0 then (if a = 0 then nan else if 0 < a then pinf else ninf)
      else fin (a / b)
  | fin _, pinf => fin 0
  | fin _, ninf => fin 0
  | pinf, fin b => if 0 ≤ b then pinf else ninf
  | ninf, fin b => if 0 ≤ b then ninf else pinf
  | pinf, pinf => nan
  | pinf, ninf => nan
  | ninf, pinf => nan
  | ninf, ninf => nan
  | nan, _ => nan
  | _, nan => nan

end PF

/-! ### RSI (src/agent.py, `calculate_rsi`, lines 37-42)

```python
def calculate_rsi(data, window=14):
    delta = data[Close].diff()
    gain = (delta.where(delta > 0, 0)).rolling(window).mean()
    loss = (-delta.where(delta < 0, 0)).rolling(window).mean()
    rs = gain / loss
    return 100 - (100 / (1 + rs))
```

`diff()` puts NaN at position 0; `delta.where(delta > 0, 0)` replaces that
NaN by 0 (the condition NaN > 0 evaluates to False), so the gain and loss
series start with a literal 0 at position 0 followed by the clipped
close-to-close deltas.  We embed the value of the returned series at its
last position.  The rolling means are means of non-negative finite
rationals, so all non-finite behaviour is confined to the final three
arithmetic steps, carried out in `PF`. -/

/-- Close-to-close differences: `data[Close].diff()` without its leading
NaN entry. -/
def deltas (closes : List ℚ) : List ℚ :=
  (closes.tail.zip closes).map fun p => p.1 - p.2

/-- The pandas gain series of `calculate_rsi`: a leading 0 (the NaN delta
replaced by 0 by `where`) followed by the positive parts of the deltas. -/
def gainSeries (closes : List ℚ) : List ℚ :=
  match closes with
  | [] => []
  | _ :: _ => 0 :: (deltas closes).map fun d => if 0 < d then d else 0

/-- The pandas loss series of `calculate_rsi`: a leading 0 followed by the
negated negative parts of the deltas. -/
def lossSeries (closes : List ℚ) : List ℚ :=
  match closes with
  | [] => []
  | _ :: _ => 0 :: (deltas closes).map fun d => if d < 0 then -d else 0

/-- Last entry of `series.rolling(window=w).mean()`: the mean of the final
`w` entries when at least `w` entries exist (and `w ≥ 1`), NaN (here: none)
otherwise. -/
def rollMeanLast (xs : List ℚ) (w : ℕ) : Option ℚ :=
  if 1 ≤ w ∧ w ≤ xs.length then some ((xs.drop (xs.length - w)).sum / w)
  else none

/-- Value of `calculate_rsi(data, window)` at the last bar: none when the
rolling means are still NaN (not enough bars), otherwise the pandas float
`100 - 100/(1 + gain/loss)` computed in `PF`. -/
def calculate_rsi (closes : List ℚ) (window : ℕ) : Option PF :=
  match rollMeanLast (gainSeries closes) window,
        rollMeanLast (lossSeries closes) window with
  | some g, some l =>
      some (PF.sub (.fin 100) (PF.div (.fin 100)
        (PF.add (.fin 1) (PF.div (.fin g) (.fin l)))))
  | _, _ => none

/-! ### Signal detector (src/agent.py, `analyze_market`, lines 230-237)

```python
is_uptrend = price > ma200
diff = abs(price - ma60)
is_near_ma60 = (diff / ma60) <= THRESHOLD
...
if is_near_ma60 and is_uptrend:
```

The snapshot carries the latest RSI value as well (agent.py line 225 reads
it into `current`), which the trigger never consults.  Annualized
historical volatility involves real logarithms and square roots, is not
consulted by the trigger either, and is left out of the embedding. -/

/-- Latest indicator values for one asset (spec IndicatorSnapshot). -/
structure IndicatorSnapshot where
  price : ℚ
  shortMA : ℚ
  longMA : ℚ
  rsi : Option PF
  deriving DecidableEq, Repr

/-- Configured proximity threshold of src/agent.py line 22 (0.025). -/
def THRESHOLD : ℚ := 25 / 1000

/-- Trend check of the detector: price strictly above the long MA. -/
def is_uptrend (s : IndicatorSnapshot) : Bool :=
  decide (s.longMA < s.price)

/-- The relative gap between price and the short MA (spec
percentGapToShortMA). -/
def percentGapToShortMA (s : IndicatorSnapshot) : ℚ :=
  |s.price - s.shortMA| / s.shortMA

/-- Proximity check of the detector: relative gap at most the threshold. -/
def is_near_ma60 (s : IndicatorSnapshot) (threshold : ℚ) : Bool :=
  decide (percentGapToShortMA s ≤ threshold)

/-- The trigger of the detector: the conjunction guarding the signal
branch, `if is_near_ma60 and is_uptrend`. -/
def triggered (s : IndicatorSnapshot) (threshold : ℚ) : Bool :=
  is_near_ma60 s threshold && is_uptrend s

/-- The per-asset decision path of `analyze_market` (lines 214-237): skip
when fewer than 200 bars exist, otherwise build the latest indicator
snapshot (close, MA60, MA200, RSI) and evaluate the trigger on it. -/
def analyzeTrigger (closes : List ℚ) : Option Bool :=
  if closes.length < 200 then none
  else
    match closes.getLast?, rollMeanLast closes 60, rollMeanLast closes 200 with
    | some price, some ma60, some ma200 =>
        some (triggered
          { price := price, shortMA := ma60, longMA := ma200,
            rsi := calculate_rsi closes 14 } THRESHOLD)
    | _, _, _ => none

/-! ### Backtest engine (src/agent.py, `run_backtest`, lines 128-151)

```python
def run_backtest(data):
    df = data.copy()
    df[Signal] = (df[Low] <= df[MA60] * (1 + THRESHOLD))
                   and (df[Close] > df[MA200])
                   and (df[Close] > df[MA60])
    signals = df[df.Signal].index
    if len(signals) < 1: return "No similar setups."
    trades = []
    for date in signals:
        idx = df.index.get_loc(date)
        if idx + 10 < len(df):
            buy_price = df.iloc[idx][Close]
            sell_price = df.iloc[idx + 10][Close]
            trades.append((sell_price - buy_price) / buy_price)
    if not trades: return "Insufficient data."
    win_rate = len([t for t in trades if t > 0]) / len(trades) * 100
    avg_return = (sum(trades) / len(trades)) * 100
    return the summary line: win rate, average return, trade count
```

A bar of the annotated series carries Low, Close and the two MA columns;
the MA columns are optional because their first entries are NaN, and a
pandas comparison against NaN is False, so a bar with an undefined MA
never satisfies the Signal condition.  The three string returns become
the three constructors of `BacktestResult`. -/

/-- One bar of the MA-annotated historical series handed to the backtest.
The `signal` field models the Signal column the backtest adds to its
private copy; it is `none` on the caller side. -/
structure AnnBar where
  low : ℚ
  close : ℚ
  ma60 : Option ℚ
  ma200 : Option ℚ
  signal : Option Bool := none
  deriving DecidableEq, Repr

/-- The Signal condition of `run_backtest` at one bar (False whenever an
MA is still NaN, as in pandas). -/
def sig (b : AnnBar) : Bool :=
  match b.ma60, b.ma200 with
  | some m60, some m200 =>
      decide (b.low ≤ m60 * (1 + THRESHOLD)) &&
      decide (m200 < b.close) && decide (m60 < b.close)
  | _, _ => false

/-- Signal condition read at a positional index of the series. -/
def sigAt (df : List AnnBar) (i : ℕ) : Bool :=
  match df[i]? with
  | some b => sig b
  | none => false

/-- The positional indices of the bars whose Signal is True
(`signals = df[df.Signal].index`, converted by `get_loc`). -/
def signalIdx (df : List AnnBar) : List ℕ :=
  (List.range df.length).filter (sigAt df)

/-- The trade the loop body records at signal index `i`: the simple
10-bar forward close-to-close return when the exit bar exists, nothing
otherwise (`if idx + 10 < len(df)`). -/
def tradeAt (df : List AnnBar) (i : ℕ) : Option ℚ :=
  match df[i]?, df[i + 10]? with
  | some entry, some exitBar => some ((exitBar.close - entry.close) / entry.close)
  | _, _ => none

/-- The list of recorded forward returns. -/
def trades (df : List AnnBar) : List ℚ :=
  (signalIdx df).filterMap (tradeAt df)

/-- Result of the backtest: the two sentinel strings of lines 136 and 146
and the numeric summary line of line 151. -/
inductive BacktestResult where
  | noSetups
  | insufficientData
  | summary (winRatePercent avgReturnPercent : ℚ) (tradeCount : ℕ)
  deriving DecidableEq, Repr

/-- The value `run_backtest` computes from the Signal-annotated frame. -/
def backtestResult (df : List AnnBar) : BacktestResult :=
  if signalIdx df = [] then .noSetups
  else if trades df = [] then .insufficientData
  else
    .summary
      ((((trades df).filter fun t => decide (0 < t)).length : ℚ)
        / ((trades df).length : ℚ) * 100)
      ((trades df).sum / ((trades df).length : ℚ) * 100)
      (trades df).length

/-- Adding the Signal column to a frame (the assignment to df.Signal). -/
def withSignal (df : List AnnBar) : List AnnBar :=
  df.map fun b => { b with signal := some (sig b) }

/-- The whole of `run_backtest` including its effect on the caller: the
first component is the series the caller observes after the call, the
second the returned result.  `copyInput = true` models line 129,
`df = data.copy()`: the Signal column is written to a fresh frame, so the
caller still observes `data`.  With `copyInput = false` (no copy) the
caller would observe the annotated frame instead. -/
def runBacktestImpl (copyInput : Bool) (data : List AnnBar) :
    List AnnBar × BacktestResult :=
  let df := withSignal data
  ((if copyInput then data else df), backtestResult df)

/-- `run_backtest` as written, with the copy of line 129. -/
def run_backtest (data : List AnnBar) : List AnnBar × BacktestResult :=
  runBacktestImpl true data

/-! ### Option candidate selector (src/agent.py, `get_option_idea`, lines 64-106)

```python
for exp_str in expirations:
    exp_date = datetime.strptime(exp_str)
    days_out = (exp_date - today).days
    if min_days <= days_out <= max_days:
        target_date = exp_str
        break
if not target_date:
    target_date = expirations[0] # Fallback to nearest
opt_chain = stock.option_chain(target_date)
calls = opt_chain.calls
target_strike = current_price * 1.02
calls.abs_diff = abs(calls.strike - target_strike)
best_call = calls.loc[calls.abs_diff.idxmin()]
```

An expiration is represented by its integer days-to-expiry
(`(exp_date - today).days`); the chain of the chosen expiration is a list
of call rows.  On an empty expiration list the function returns None
before the loop; on an empty chain `idxmin` raises ValueError, which the
surrounding try/except turns into None as well.  `idxmin` returns the
first row attaining the minimum, embedded here as a left fold that keeps
the current best on ties. -/

/-- One row of the call chain. -/
structure CallRow where
  strike : ℚ
  lastPrice : ℚ
  impliedVolatility : ℚ
  volume : ℚ
  deriving DecidableEq, Repr

/-- The expiration scan: the first listed expiration 30 to 60 days out,
else the first listed expiration, else nothing. -/
def pickExpiration (exps : List ℤ) : Option ℤ :=
  match exps.find? fun d => decide (30 ≤ d) && decide (d ≤ 60) with
  | some d => some d
  | none => exps.head?

/-- The slightly out-of-the-money strike target, `current_price * 1.02`. -/
def targetStrike (price : ℚ) : ℚ :=
  price * (102 / 100)

/-- One step of the `idxmin` fold: replace the best row so far only on a
strictly smaller absolute strike difference (first minimum wins). -/
def bestCallStep (target : ℚ) (best x : CallRow) : CallRow :=
  if |x.strike - target| < |best.strike - target| then x else best

/-- The row `calls.loc[calls.abs_diff.idxmin()]`, none on an empty chain
(the raised ValueError becomes None through the except). -/
def pickCall (calls : List CallRow) (price : ℚ) : Option CallRow :=
  match calls with
  | [] => none
  | c :: rest => some (rest.foldl (bestCallStep (targetStrike price)) c)

/-- The dictionary `get_option_idea` returns. -/
structure OptionIdea where
  expiration : ℤ
  strike : ℚ
  lastPrice : ℚ
  impliedVolatility : ℚ
  volume : ℚ
  deriving DecidableEq, Repr

/-- `get_option_idea`: pick a target expiration, then the best call of the
chain fetched for it (the chain is a parameter here, standing for the
collaborator call `stock.option_chain(target_date).calls`). -/
def get_option_idea (exps : List ℤ) (chain : List CallRow) (price : ℚ) :
    Option OptionIdea :=
  match pickExpiration exps with
  | none => none
  | some d =>
      match pickCall chain price with
      | none => none
      | some c =>
          some { expiration := d, strike := c.strike, lastPrice := c.lastPrice,
                 impliedVolatility := c.impliedVolatility, volume := c.volume }

/-! ### Notification step of the scan loop

src/agent.py lines 246-324: after a trigger, `option_data` may be None
(line 248 prepares the fallback text "No options available." for exactly
that case), the advisory model is called, its response parsed with
`json.loads`, and the email body built by an f-string that dereferences
`option_data[impliedVolatility]` unconditionally (line 303).  The whole
stretch sits in one `try/except` whose handler only prints, so a parse
failure, or a None `option_data` reaching line 303 (a TypeError), ends
the asset with no email sent.

src/backup.py lines 147-158: the older variant parses the response inside
an inner try whose except clause catches only `json.JSONDecodeError`
(line 154) and then sends a deterministic fallback email built from the
ticker and the price.  A response that is valid JSON but is not a
dictionary carrying both keys raises KeyError (or TypeError) at
`data[body]` on line 152; that exception is not a `json.JSONDecodeError`,
escapes the inner handler to the per-asset `except Exception` at line
165, and no email at all is sent.  The fallback therefore covers only
the invalid-JSON failure, not every malformed response.

String contents reproduce the f-string text with Python numeric
formatting (`:.2f`, `:.1%`) collapsed to `toString` of the exact
rational; static HTML boilerplate around the shown fields is kept only
where a claim reads it. -/

/-- A successfully parsed advisory response. -/
structure AdvisoryMsg where
  subject : String
  body : String
  deriving DecidableEq, Repr

/-- An email handed to the notification sink. -/
structure Email where
  subject : String
  body : String
  deriving DecidableEq, Repr

/-- The body the f-string of agent.py lines 290-318 builds once both the
parsed advisory data and the option data are at hand. -/
def agentFinalBody (ticker : String) (price ma60 ma200 : ℚ) (o : OptionIdea)
    (advisoryBody optText backtestLine : String) : String :=
  "<h2>Strategy Signal: Dip in Uptrend</h2><p><strong>" ++ ticker ++
  "</strong> has pulled back to the 60-Day Moving Average.</p>" ++
  "<table><tr><td>Current Price</td><td>$" ++ toString price ++
  "</td></tr><tr><td>Support (MA60)</td><td>$" ++ toString ma60 ++
  "</td></tr><tr><td>Trend (MA200)</td><td>$" ++ toString ma200 ++
  "</td></tr><tr><td>Option IV / HV</td><td>IV: " ++
  toString o.impliedVolatility ++
  "</td></tr><tr><td>Backtest</td><td>" ++ backtestLine ++
  "</td></tr></table><h3>AI Analysis and Option Verdict</h3>" ++
  advisoryBody ++ "<h3>Suggested Option</h3><p>" ++ optText ++ "</p>"

/-- The notification outcome of the signal branch of agent.py for one
triggered asset, as a function of the parse outcome of the advisory
response and of the option selector result: `none` means the except
handler of line 323 swallowed an exception and no email was sent.
`parsed = none` stands for any failure of the parse chain - invalid
JSON raising at `json.loads` as well as valid JSON without the subject
and body keys raising KeyError at the later accesses - since the single
catch-all handler of agent.py treats them identically; a missing option
idea raises TypeError at line 303 while the body is built. -/
def agentNotify (parsed : Option AdvisoryMsg) (optionData : Option OptionIdea)
    (ticker : String) (price ma60 ma200 : ℚ)
    (optText backtestLine : String) : Option Email :=
  match parsed with
  | none => none
  | some d =>
      match optionData with
      | none => none
      | some o =>
          some { subject := d.subject,
                 body := agentFinalBody ticker price ma60 ma200 o d.body
                           optText backtestLine }

/-- The deterministic fallback email of backup.py line 156, built from the
ticker and the current price alone. -/
def backupFallback (ticker : String) (price : ℚ) : Email :=
  { subject := "Buy Signal: " ++ ticker,
    body := "Price $" ++ toString price ++
            " is at MA60 support in an uptrend." }

/-- Outcome of parsing the advisory response text in backup.py, with the
two failure classes its inner handler distinguishes: `invalidJson` is a
`json.JSONDecodeError` raised by `json.loads` itself, `missingKeys` is a
response that parses as JSON but is not a dictionary with both the
subject and body keys, so `data[body]` on line 152 raises KeyError (or
TypeError) instead. -/
inductive AdvisoryParse where
  | ok (msg : AdvisoryMsg)
  | invalidJson
  | missingKeys
  deriving DecidableEq, Repr

/-- The notification outcome of the signal branch of backup.py (lines
150-158): a fully parsed response is forwarded with the news sources
appended; a `json.JSONDecodeError` is caught by the inner handler which
sends `backupFallback`; a keyless-JSON response raises past the inner
handler into the per-asset `except Exception` of line 165, and no email
is sent (`none`). -/
def backupNotify (parsed : AdvisoryParse) (ticker : String) (price : ℚ)
    (news : String) : Option Email :=
  match parsed with
  | .ok d =>
      some { subject := d.subject,
             body := d.body ++ "<br><hr><strong>Sources:</strong><br>" ++ news }
  | .invalidJson => some (backupFallback ticker price)
  | .missingKeys => none

/-! ### Concrete inputs used by witnesses and counterexamples -/

/-- A flat 15-bar close series: every delta is zero. -/
def flatSeries : List ℚ :=
  [100, 100, 100, 100, 100, 100, 100, 100, 100, 100, 100, 100, 100, 100, 100]

/-- A strictly rising 15-bar close series: every delta is +1. -/
def risingSeries : List ℚ :=
  [1, 2, 3, 4, 5, 6, 7, 8, 9, 10, 11, 12, 13, 14, 15]

/-- A bar that touches the short MA from below with its low while its
close stays below the short MA: the two-conjunct rule of the claim admits
it, the Signal condition of the code does not. -/
def touchBar : AnnBar :=
  { low := 90, close := 95, ma60 := some 100, ma200 := some 50 }

/-- A bar satisfying all three conjuncts of the Signal condition. -/
def entryBar : AnnBar :=
  { low := 98, close := 101, ma60 := some 100, ma200 := some 90 }

/-- A bar with undefined MA columns: never a signal. -/
def quietBar : AnnBar :=
  { low := 100, close := 100, ma60 := none, ma200 := none }

/-- The exit bar of the witness trade. -/
def exitBarW : AnnBar :=
  { low := 105, close := 106, ma60 := none, ma200 := none }

/-- An 11-bar annotated series whose only signal is at index 0, with the
exit bar exactly 10 sessions later. -/
def backtestSeries : List AnnBar :=
  [entryBar, quietBar, quietBar, quietBar, quietBar, quietBar, quietBar,
   quietBar, quietBar, quietBar, exitBarW]

/-- Call chain of the §8 option test: strikes 98, 101, 103, 110. -/
def chainW : List CallRow :=
  [{ strike := 98, lastPrice := 0, impliedVolatility := 0, volume := 0 },
   { strike := 101, lastPrice := 0, impliedVolatility := 0, volume := 0 },
   { strike := 103, lastPrice := 0, impliedVolatility := 0, volume := 0 },
   { strike := 110, lastPrice := 0, impliedVolatility := 0, volume := 0 }]

/-- A 200-bar flat price history. -/
def histA : List ℚ := List.replicate 200 100

/-- A 200-bar history agreeing with `histA` on last close, MA60 and MA200
but with a different RSI: two compensating moves inside the last RSI
window. -/
def histB : List ℚ := List.replicate 195 100 ++ [101, 99, 100, 100, 100]

/-! ## Theorems -/

/-- C1: for every indicator snapshot with positive short MA, the trigger
of the detector is on exactly when the price is above the long MA and the
relative gap to the short MA is at most the threshold; falsifying either
conjunct alone turns the trigger off, and the boundary where the gap
equals the threshold exactly lies inside the trigger. -/
theorem C1_trigger_iff (s : IndicatorSnapshot) (θ : ℚ) (hpos : 0 < s.shortMA) :
    (triggered s θ = true ↔
      (s.longMA < s.price ∧ |s.price - s.shortMA| / s.shortMA ≤ θ))
    ∧ (¬ s.longMA < s.price → triggered s θ = false)
    ∧ (θ < |s.price - s.shortMA| / s.shortMA → triggered s θ = false)
    ∧ (s.longMA < s.price → |s.price - s.shortMA| / s.shortMA = θ →
        triggered s θ = true) := by
  have hiff : triggered s θ = true ↔
      (s.longMA < s.price ∧ |s.price - s.shortMA| / s.shortMA ≤ θ) := by
    simp [triggered, is_near_ma60, is_uptrend, percentGapToShortMA, and_comm]
  refine ⟨hiff, ?_, ?_, ?_⟩
  · intro h
    rcases Bool.eq_false_or_eq_true (triggered s θ) with ht | hf
    · exact absurd (hiff.mp ht).1 h
    · exact hf
  · intro h
    rcases Bool.eq_false_or_eq_true (triggered s θ) with ht | hf
    · exact absurd (hiff.mp ht).2 (not_le.mpr h)
    · exact hf
  · intro h1 h2
    exact hiff.mpr ⟨h1, le_of_eq h2⟩

/-- C1 witness: the §8 scenario, price 100, shortMA 98, longMA 90 and
threshold 0.025 fires the trigger. -/
theorem C1_witness :
    triggered { price := 100, shortMA := 98, longMA := 90, rsi := none }
      (1 / 40) = true :=
  ((C1_trigger_iff { price := 100, shortMA := 98, longMA := 90, rsi := none }
      (1 / 40) (by norm_num)).1).mpr (by norm_num)

/-- C3 counterexample: with a malformed advisory response (parse outcome
none), the orchestrator of agent.py sends no notification for a triggered
asset, even with option data present. -/
theorem C3_counterexample :
    agentNotify none
      (some { expiration := 45, strike := 101, lastPrice := 5,
              impliedVolatility := 1 / 4, volume := 10 })
      "AAPL" 100 98 90 "optText" "No similar setups." = none := rfl

/-- C3 amended: neither orchestrator guarantees a notification for every
malformed advisory response.  The backup.py orchestrator substitutes the
deterministic fallback email, built purely from the ticker and price
fields of the evidence, only when `json.loads` itself fails; a response
that is valid JSON but lacks the subject/body keys raises KeyError past
its inner handler and no email is sent.  The agent.py orchestrator
swallows every advisory parse failure and sends nothing for that
asset. -/
theorem C3_fallback (ticker : String) (price : ℚ) (news : String)
    (optionData : Option OptionIdea) (ma60 ma200 : ℚ)
    (optText btLine : String) :
    backupNotify .invalidJson ticker price news
        = some (backupFallback ticker price)
    ∧ backupNotify .missingKeys ticker price news = none
    ∧ agentNotify none optionData ticker price ma60 ma200 optText btLine
        = none :=
  ⟨rfl, rfl, rfl⟩

/-- C8: the option selector returns the absent value, without raising, on
an empty expiration list and on an empty call chain; but in agent.py the
option-less outcome then aborts the notification of the triggered asset,
because the email body construction dereferences the absent option data
(line 303) and the resulting exception is swallowed: no email is sent
even though the advisory response parsed. -/
theorem C8_optionless (chain : List CallRow) (exps : List ℤ) (price : ℚ) :
    get_option_idea [] chain price = none
    ∧ get_option_idea exps [] price = none
    ∧ agentNotify (some { subject := "sub", body := "analysis" }) none
        "AAPL" 100 98 90 "No options available." "No similar setups."
        = none := by
  refine ⟨rfl, ?_, rfl⟩
  unfold get_option_idea
  cases h : pickExpiration exps <;> simp [pickCall]

/-- C10: the backtest never mutates its input: the series the caller
observes after `run_backtest` is the series passed in; the Signal column
is written only to the internal copy made on line 129. -/
theorem C10_no_mutation (data : List AnnBar) :
    (run_backtest data).1 = data := rfl

/-- C4 amended: whenever the trailing average loss is zero and the
trailing average gain is positive, the RSI of the code is exactly 100 and
no division error is raised; when both averages are zero (a flat window)
the code instead yields the float NaN, not 100. -/
theorem C4_avgloss_zero (closes : List ℚ) (w : ℕ) (g : ℚ)
    (hl : rollMeanLast (lossSeries closes) w = some 0)
    (hg : rollMeanLast (gainSeries closes) w = some g)
    (hgpos : 0 < g) :
    calculate_rsi closes w = some (PF.fin 100) := by
  unfold calculate_rsi
  rw [hg, hl]
  simp [PF.div, PF.add, PF.sub, hgpos, hgpos.ne']

/-- C4 witness: a strictly rising 15-bar series has average loss zero and
average gain one over the 14-bar window, and its RSI is 100. -/
theorem C4_witness : calculate_rsi risingSeries 14 = some (PF.fin 100) :=
  C4_avgloss_zero risingSeries 14 1
    (by norm_num [risingSeries, rollMeanLast, lossSeries, deltas])
    (by norm_num [risingSeries, rollMeanLast, gainSeries, deltas])
    (by norm_num)

/-- C4 counterexample: on a flat 15-bar series the trailing average loss
is zero (with the window satisfied), yet the RSI of the code is the float
NaN, not 100: the pandas quotient 0/0 is NaN and propagates. -/
theorem C4_counterexample :
    rollMeanLast (lossSeries flatSeries) 14 = some 0
    ∧ 15 ≤ flatSeries.length
    ∧ calculate_rsi flatSeries 14 = some PF.nan
    ∧ calculate_rsi flatSeries 14 ≠ some (PF.fin 100) := by
  have h3 : calculate_rsi flatSeries 14 = some PF.nan := by
    norm_num [flatSeries, calculate_rsi, rollMeanLast, gainSeries,
      lossSeries, deltas, PF.div, PF.add, PF.sub]
  refine ⟨?_, ?_, h3, ?_⟩
  · norm_num [flatSeries, rollMeanLast, lossSeries, deltas]
  · norm_num [flatSeries]
  · simp [h3]

/-- Writing the Signal column leaves the Signal condition of a bar
unchanged: `sig` never reads the stored column. -/
theorem sig_set_signal (b : AnnBar) (x : Option Bool) :
    sig { b with signal := x } = sig b := by
  cases b
  rfl

/-- Writing the Signal column changes no positional Signal reads. -/
theorem sigAt_withSignal (df : List AnnBar) (i : ℕ) :
    sigAt (withSignal df) i = sigAt df i := by
  unfold sigAt withSignal
  rw [List.getElem?_map]
  cases h : df[i]? with
  | none => rfl
  | some b => simp [sig_set_signal]

/-- Writing the Signal column preserves the length of the frame. -/
theorem length_withSignal (df : List AnnBar) :
    (withSignal df).length = df.length :=
  List.length_map df _

/-- Writing the Signal column preserves the signal index list. -/
theorem signalIdx_withSignal (df : List AnnBar) :
    signalIdx (withSignal df) = signalIdx df := by
  unfold signalIdx
  rw [length_withSignal]
  exact List.filter_congr fun i _ => sigAt_withSignal df i

/-- Writing the Signal column preserves each recorded trade. -/
theorem tradeAt_withSignal (df : List AnnBar) (i : ℕ) :
    tradeAt (withSignal df) i = tradeAt df i := by
  unfold tradeAt withSignal
  rw [List.getElem?_map, List.getElem?_map]
  cases df[i]? <;> cases df[i + 10]? <;> rfl

/-- Writing the Signal column preserves the trade list. -/
theorem trades_withSignal (df : List AnnBar) :
    trades (withSignal df) = trades df := by
  unfold trades
  rw [signalIdx_withSignal]
  exact List.filterMap_congr fun i _ => tradeAt_withSignal df i

/-- Writing the Signal column preserves the backtest result. -/
theorem backtestResult_withSignal (df : List AnnBar) :
    backtestResult (withSignal df) = backtestResult df := by
  unfold backtestResult
  rw [signalIdx_withSignal, trades_withSignal]

/-- C6: when no trade is recorded, the backtest returns one of its two
sentinel results, never the numeric summary, so no win rate (in
particular not a 0% one) is reported. -/
theorem C6_zero_trades (df : List AnnBar) (h : trades df = []) :
    ((run_backtest df).2 = BacktestResult.noSetups ∨
     (run_backtest df).2 = BacktestResult.insufficientData)
    ∧ ∀ w a n, (run_backtest df).2 ≠ BacktestResult.summary w a n := by
  have h2 : (run_backtest df).2 = backtestResult df :=
    backtestResult_withSignal df
  rw [h2]
  unfold backtestResult
  by_cases hs : signalIdx df = []
  · simp [hs]
  · simp [hs, h]

/-- C6 witness: the empty series records no trade and yields the first
sentinel, with no summary. -/
theorem C6_witness :
    ((run_backtest []).2 = BacktestResult.noSetups ∨
     (run_backtest []).2 = BacktestResult.insufficientData)
    ∧ ∀ w a n, (run_backtest []).2 ≠ BacktestResult.summary w a n :=
  C6_zero_trades [] rfl

/-- Every entry of the gain series is non-negative. -/
theorem gainSeries_nonneg (closes : List ℚ) :
    ∀ x ∈ gainSeries closes, 0 ≤ x := by
  intro x hx
  unfold gainSeries at hx
  cases closes with
  | nil => simp at hx
  | cons c l =>
      rcases List.mem_cons.mp hx with h0 | hm
      · simp [h0]
      · rcases List.mem_map.mp hm with ⟨d, _, rfl⟩
        split
        · linarith
        · exact le_refl 0

/-- Every entry of the loss series is non-negative. -/
theorem lossSeries_nonneg (closes : List ℚ) :
    ∀ x ∈ lossSeries closes, 0 ≤ x := by
  intro x hx
  unfold lossSeries at hx
  cases closes with
  | nil => simp at hx
  | cons c l =>
      rcases List.mem_cons.mp hx with h0 | hm
      · simp [h0]
      · rcases List.mem_map.mp hm with ⟨d, _, rfl⟩
        split
        · linarith
        · exact le_refl 0

/-- A defined rolling mean of a non-negative series is non-negative. -/
theorem rollMeanLast_nonneg (xs : List ℚ) (w : ℕ) (m : ℚ)
    (hxs : ∀ x ∈ xs, 0 ≤ x) (h : rollMeanLast xs w = some m) : 0 ≤ m := by
  unfold rollMeanLast at h
  split_ifs at h with hc
  · rw [Option.some_inj] at h
    have hsum : 0 ≤ (xs.drop (xs.length - w)).sum :=
      List.sum_nonneg fun x hx => hxs x (List.mem_of_mem_drop hx)
    rw [← h]
    exact div_nonneg hsum (by positivity)

/-- C5: for a series of finite closes with at least window+1 bars, any
finite RSI value the code produces at the last bar lies in [0, 100]. -/
theorem C5_rsi_in_range (closes : List ℚ) (w : ℕ) (q : ℚ)
    (hlen : w + 1 ≤ closes.length)
    (h : calculate_rsi closes w = some (PF.fin q)) :
    0 ≤ q ∧ q ≤ 100 := by
  unfold calculate_rsi at h
  cases hg : rollMeanLast (gainSeries closes) w with
  | none =>
      rw [hg] at h
      cases hl : rollMeanLast (lossSeries closes) w <;> rw [hl] at h <;>
        simp at h
  | some g =>
      cases hl : rollMeanLast (lossSeries closes) w with
      | none => rw [hg, hl] at h; simp at h
      | some l =>
          rw [hg, hl] at h
          simp only [Option.some_inj] at h
          have hg0 : 0 ≤ g :=
            rollMeanLast_nonneg _ _ _ (gainSeries_nonneg closes) hg
          have hl0 : 0 ≤ l :=
            rollMeanLast_nonneg _ _ _ (lossSeries_nonneg closes) hl
          by_cases hlz : l = 0
          · subst hlz
            by_cases hgz : g = 0
            · subst hgz
              simp [PF.div, PF.add, PF.sub] at h
            · have hgpos : 0 < g := hg0.lt_of_ne (Ne.symm hgz)
              simp [PF.div, PF.add, PF.sub, hgz, hgpos] at h
              rw [← h]
              norm_num
          · have hlpos : 0 < l := hl0.lt_of_ne (Ne.symm hlz)
            have hrs : (0:ℚ) ≤ g / l := div_nonneg hg0 hl0
            have hne : (1:ℚ) + g / l ≠ 0 := by positivity
            simp [PF.div, PF.add, PF.sub, hlz, hne] at h
            have hdle : 100 / (1 + g / l) ≤ 100 :=
              div_le_self (by norm_num) (by linarith)
            have hdpos : 0 < 100 / (1 + g / l) := by positivity
            rw [← h]
            constructor
            · linarith
            · linarith

/-- C5 witness: the RSI of the rising series is the finite value 100,
which the theorem places in [0, 100]. -/
theorem C5_witness : 0 ≤ (100:ℚ) ∧ (100:ℚ) ≤ 100 :=
  C5_rsi_in_range risingSeries 14 100 (by norm_num [risingSeries])
    (by norm_num [risingSeries, calculate_rsi, rollMeanLast, gainSeries,
      lossSeries, deltas, PF.div, PF.add, PF.sub])

/-- Membership in the signal index list characterized positionally. -/
theorem mem_signalIdx_iff (df : List AnnBar) (i : ℕ) :
    i ∈ signalIdx df ↔ i < df.length ∧ sigAt df i = true := by
  unfold signalIdx
  rw [List.mem_filter, List.mem_range]

/-- The Signal condition of a bar, spelled out: both MA columns defined,
low within the buffered short MA, close above both MAs. -/
theorem sig_eq_true_iff (b : AnnBar) :
    sig b = true ↔ ∃ m60 m200, b.ma60 = some m60 ∧ b.ma200 = some m200 ∧
      b.low ≤ m60 * (1 + THRESHOLD) ∧ m200 < b.close ∧ m60 < b.close := by
  unfold sig
  cases h60 : b.ma60 <;> cases h200 : b.ma200 <;> simp [and_assoc]

/-- C2 amended: a historical bar qualifies as a trigger occurrence exactly
when (all MA columns defined and) low ≤ shortMA·(1+threshold), close >
longMA and additionally close > shortMA — the code carries this third
conjunct absent from the claim; a qualifying bar yields a recorded trade
exactly when the bar 10 sessions later exists, with the simple
close-to-close return, and every recorded trade stays inside the available
history. -/
theorem C2_backtest_rule (df : List AnnBar) (i : ℕ) (b : AnnBar)
    (hb : df[i]? = some b) :
    (i ∈ signalIdx df ↔ ∃ m60 m200, b.ma60 = some m60 ∧ b.ma200 = some m200 ∧
        b.low ≤ m60 * (1 + THRESHOLD) ∧ m200 < b.close ∧ m60 < b.close)
    ∧ ((tradeAt df i).isSome ↔ i + 10 < df.length)
    ∧ (∀ x, df[i + 10]? = some x →
        tradeAt df i = some ((x.close - b.close) / b.close))
    ∧ (∀ t ∈ trades df, ∃ j bj bx, j ∈ signalIdx df ∧ j + 10 < df.length ∧
        df[j]? = some bj ∧ df[j + 10]? = some bx ∧
        t = (bx.close - bj.close) / bj.close) := by
  have hi : i < df.length := (List.getElem?_eq_some.mp hb).1
  have hsig : sigAt df i = sig b := by unfold sigAt; rw [hb]
  refine ⟨?_, ?_, ?_, ?_⟩
  · rw [mem_signalIdx_iff, hsig, sig_eq_true_iff]
    simp [hi]
  · unfold tradeAt
    rw [hb]
    cases h10 : df[i + 10]? with
    | none =>
        have := List.getElem?_eq_none_iff.mp h10
        simp
        omega
    | some x =>
        have : i + 10 < df.length := (List.getElem?_eq_some.mp h10).1
        simp [this]
  · intro x hx
    unfold tradeAt
    rw [hb, hx]
  · intro t ht
    unfold trades at ht
    rcases List.mem_filterMap.mp ht with ⟨j, hj, hjt⟩
    unfold tradeAt at hjt
    cases h1 : df[j]? with
    | none => rw [h1] at hjt; simp at hjt
    | some bj =>
        cases h2 : df[j + 10]? with
        | none => rw [h1, h2] at hjt; simp at hjt
        | some bx =>
            rw [h1, h2] at hjt
            simp only [Option.some_inj] at hjt
            exact ⟨j, bj, bx, hj, (List.getElem?_eq_some.mp h2).1, h1, h2,
              hjt.symm⟩

/-- C2 counterexample: a bar whose low touches the buffered short MA and
whose close is above the long MA — the two conjuncts of the claim — is
not a trigger occurrence of the code, because its close is not above the
short MA. -/
theorem C2_counterexample :
    touchBar.ma60 = some 100 ∧ touchBar.ma200 = some 50 ∧
    touchBar.low ≤ 100 * (1 + THRESHOLD) ∧ (50:ℚ) < touchBar.close ∧
    0 ∉ signalIdx [touchBar] := by
  refine ⟨rfl, rfl, by norm_num [touchBar, THRESHOLD],
    by norm_num [touchBar], ?_⟩
  intro hmem
  obtain ⟨-, hs⟩ := (mem_signalIdx_iff [touchBar] 0).mp hmem
  have hsig : sig touchBar = true := by simpa [sigAt] using hs
  obtain ⟨m60, m200, h1, h2, h3, h4, h5⟩ := sig_eq_true_iff touchBar |>.mp hsig
  rw [show touchBar.ma60 = some 100 from rfl, Option.some_inj] at h1
  rw [show touchBar.close = 95 from rfl, ← h1] at h5
  norm_num at h5

/-- C2 witness: in the 11-bar witness series the entry bar at index 0
qualifies and a trade is recorded against the exit bar at index 10 with
return 5/101. -/
theorem C2_witness :
    0 ∈ signalIdx backtestSeries ∧
    tradeAt backtestSeries 0 = some (5 / 101) := by
  have h := C2_backtest_rule backtestSeries 0 entryBar rfl
  constructor
  · exact h.1.mpr ⟨100, 90, rfl, rfl, by norm_num [entryBar, THRESHOLD],
      by norm_num [entryBar], by norm_num [entryBar]⟩
  · have h3 := h.2.2.1 exitBarW rfl
    rw [h3]
    norm_num [exitBarW, entryBar]

/-- In a sorted list, the first element satisfying a predicate is least
among those satisfying it. -/
theorem find?_sorted_min {p : ℤ → Bool} {l : List ℤ} {d : ℤ}
    (hs : l.Pairwise (· ≤ ·)) (h : l.find? p = some d) :
    ∀ x ∈ l, p x = true → d ≤ x := by
  induction l with
  | nil => simp at h
  | cons a t ih =>
      obtain ⟨hle, ht⟩ := List.pairwise_cons.mp hs
      cases hpa : p a with
      | true =>
          rw [List.find?_cons_of_pos _ hpa, Option.some_inj] at h
          subst h
          intro x hx _
          rcases List.mem_cons.mp hx with rfl | hxt
          · exact le_refl x
          · exact hle x hxt
      | false =>
          rw [List.find?_cons_of_neg _ (by simp [hpa])] at h
          intro x hx hpx
          rcases List.mem_cons.mp hx with rfl | hxt
          · rw [hpa] at hpx; exact absurd hpx (by simp)
          · exact ih ht h x hxt hpx

/-- In a sorted list, the head is least. -/
theorem head?_sorted_min {l : List ℤ} {d : ℤ} (hs : l.Pairwise (· ≤ ·))
    (h : l.head? = some d) : d ∈ l ∧ ∀ x ∈ l, d ≤ x := by
  cases l with
  | nil => simp at h
  | cons a t =>
      rw [List.head?_cons, Option.some_inj] at h
      subst h
      obtain ⟨hle, -⟩ := List.pairwise_cons.mp hs
      refine ⟨List.mem_cons_self _ _, ?_⟩
      intro x hx
      rcases List.mem_cons.mp hx with rfl | hxt
      · exact le_refl x
      · exact hle x hxt

/-- Each fold step keeps or improves the absolute strike difference. -/
theorem bestCallStep_le_left (t : ℚ) (c x : CallRow) :
    |(bestCallStep t c x).strike - t| ≤ |c.strike - t| := by
  unfold bestCallStep
  split
  · linarith
  · exact le_refl _

/-- Each fold step is at least as close as the inspected row. -/
theorem bestCallStep_le_right (t : ℚ) (c x : CallRow) :
    |(bestCallStep t c x).strike - t| ≤ |x.strike - t| := by
  unfold bestCallStep
  split
  · exact le_refl _
  · linarith [not_lt.mp (by assumption : ¬ |x.strike - t| < |c.strike - t|)]

/-- The idxmin fold lands on a row of the chain. -/
theorem foldl_bestCall_mem (t : ℚ) (c : CallRow) (rest : List CallRow) :
    rest.foldl (bestCallStep t) c ∈ c :: rest := by
  induction rest generalizing c with
  | nil => simp
  | cons x r ih =>
      rw [List.foldl_cons]
      have hm := ih (bestCallStep t c x)
      rcases List.mem_cons.mp hm with hh | hh
      · rw [hh]
        unfold bestCallStep
        split
        · exact List.mem_cons_of_mem _ (List.mem_cons_self _ _)
        · exact List.mem_cons_self _ _
      · exact List.mem_cons_of_mem _ (List.mem_cons_of_mem _ hh)

/-- The idxmin fold minimizes the absolute strike difference over the
chain. -/
theorem foldl_bestCall_min (t : ℚ) (c : CallRow) (rest : List CallRow) :
    ∀ y ∈ c :: rest,
      |(rest.foldl (bestCallStep t) c).strike - t| ≤ |y.strike - t| := by
  induction rest generalizing c with
  | nil =>
      intro y hy
      rcases List.mem_cons.mp hy with rfl | hn
      · exact le_refl _
      · simp at hn
  | cons x r ih =>
      intro y hy
      rw [List.foldl_cons]
      have hmem := ih (bestCallStep t c x)
      have hstep := hmem (bestCallStep t c x) (List.mem_cons_self _ _)
      rcases List.mem_cons.mp hy with hcy | hy2
      · rw [hcy]
        exact le_trans hstep (bestCallStep_le_left t c x)
      rcases List.mem_cons.mp hy2 with hxy | hy3
      · rw [hxy]
        exact le_trans hstep (bestCallStep_le_right t c x)
      · exact hmem y (List.mem_cons_of_mem _ hy3)

/-- C7: on a chronologically sorted non-empty expiration list and a
non-empty call chain, the selector picks the nearest expiration 30 to 60
days out, falling back to the nearest expiration overall when none
qualifies, and within the chain picks a call whose strike is closest to
price·1.02; on the §8 instance (price 100, strikes 98/101/103/110 at a
qualifying expiration) the selected strike is 101. -/
theorem C7_option_selector (exps : List ℤ) (chain : List CallRow) (price : ℚ)
    (hexps : exps ≠ []) (hchain : chain ≠ [])
    (hsorted : exps.Pairwise (· ≤ ·)) :
    (∃ idea, get_option_idea exps chain price = some idea
      ∧ ((∃ d ∈ exps, 30 ≤ d ∧ d ≤ 60) →
          idea.expiration ∈ exps ∧ 30 ≤ idea.expiration ∧
          idea.expiration ≤ 60 ∧
          ∀ d ∈ exps, 30 ≤ d → d ≤ 60 → idea.expiration ≤ d)
      ∧ ((∀ d ∈ exps, ¬ (30 ≤ d ∧ d ≤ 60)) →
          idea.expiration ∈ exps ∧ ∀ d ∈ exps, idea.expiration ≤ d)
      ∧ (∃ c ∈ chain, idea.strike = c.strike
          ∧ ∀ y ∈ chain, |c.strike - targetStrike price| ≤
              |y.strike - targetStrike price|))
    ∧ get_option_idea [45] chainW 100 =
        some { expiration := 45, strike := 101, lastPrice := 0,
               impliedVolatility := 0, volume := 0 } := by
  constructor
  · cases chain with
    | nil => exact absurd rfl hchain
    | cons c rest =>
        have hpc : pickCall (c :: rest) price =
            some (rest.foldl (bestCallStep (targetStrike price)) c) := rfl
        set best := rest.foldl (bestCallStep (targetStrike price)) c with hbest
        cases hf : exps.find? fun d => decide (30 ≤ d) && decide (d ≤ 60) with
        | some e =>
            have hpe : pickExpiration exps = some e := by
              unfold pickExpiration
              rw [hf]
            refine ⟨{ expiration := e, strike := best.strike,
                      lastPrice := best.lastPrice,
                      impliedVolatility := best.impliedVolatility,
                      volume := best.volume }, ?_, ?_, ?_, ?_⟩
            · unfold get_option_idea
              rw [hpe, hpc]
            · intro _
              have hpe' := List.find?_some hf
              simp only [Bool.and_eq_true, decide_eq_true_eq] at hpe'
              show e ∈ exps ∧ 30 ≤ e ∧ e ≤ 60 ∧
                ∀ d ∈ exps, 30 ≤ d → d ≤ 60 → e ≤ d
              exact ⟨List.mem_of_find?_eq_some hf, hpe'.1, hpe'.2,
                fun d hd h30 h60 => find?_sorted_min hsorted hf d hd
                  (by simp [h30, h60])⟩
            · intro hnone
              have : exps.find? (fun d => decide (30 ≤ d) && decide (d ≤ 60))
                  = none := by
                rw [List.find?_eq_none]
                intro x hx
                simp only [Bool.and_eq_true, decide_eq_true_eq]
                exact hnone x hx
              rw [hf] at this
              exact absurd this (by simp)
            · show ∃ y ∈ c :: rest, best.strike = y.strike ∧
                  ∀ z ∈ c :: rest, |y.strike - targetStrike price| ≤
                    |z.strike - targetStrike price|
              exact ⟨best, foldl_bestCall_mem _ c rest, rfl,
                foldl_bestCall_min _ c rest⟩
        | none =>
            cases hex : exps with
            | nil => exact absurd hex hexps
            | cons a t =>
                subst hex
                have hpe : pickExpiration (a :: t) = some a := by
                  unfold pickExpiration
                  rw [hf]
                  rfl
                refine ⟨{ expiration := a, strike := best.strike,
                          lastPrice := best.lastPrice,
                          impliedVolatility := best.impliedVolatility,
                          volume := best.volume }, ?_, ?_, ?_, ?_⟩
                · unfold get_option_idea
                  rw [hpe, hpc]
                · intro hq
                  obtain ⟨d, hd, h30, h60⟩ := hq
                  have := List.find?_eq_none.mp hf d hd
                  simp [h30, h60] at this
                · intro _
                  have hh := head?_sorted_min hsorted
                    (show (a :: t).head? = some a from rfl)
                  show a ∈ a :: t ∧ ∀ d ∈ a :: t, a ≤ d
                  exact hh
                · show ∃ y ∈ c :: rest, best.strike = y.strike ∧
                      ∀ z ∈ c :: rest, |y.strike - targetStrike price| ≤
                        |z.strike - targetStrike price|
                  exact ⟨best, foldl_bestCall_mem _ c rest, rfl,
                    foldl_bestCall_min _ c rest⟩
  · show get_option_idea [45] chainW 100 = _
    unfold get_option_idea pickExpiration pickCall chainW
    norm_num [List.find?_cons, bestCallStep, targetStrike]

/-- C7 witness: the concrete §8 instance through the selector. -/
theorem C7_witness :
    get_option_idea [45] chainW 100 =
      some { expiration := 45, strike := 101, lastPrice := 0,
             impliedVolatility := 0, volume := 0 } :=
  (C7_option_selector [45] chainW 100 (by simp) (by simp [chainW])
    (List.pairwise_singleton _ _)).2

/-- C9: the trigger decision of the per-asset scan depends only on the
latest close, the latest MA60, the latest MA200 (and the fixed
threshold): two histories of sufficient length agreeing on those three
values get the same trigger outcome, whatever their other indicator
values (RSI, volatility) are. -/
theorem C9_trigger_determined (h1 h2 : List ℚ)
    (len1 : 200 ≤ h1.length) (len2 : 200 ≤ h2.length)
    (hlast : h1.getLast? = h2.getLast?)
    (hma60 : rollMeanLast h1 60 = rollMeanLast h2 60)
    (hma200 : rollMeanLast h1 200 = rollMeanLast h2 200) :
    analyzeTrigger h1 = analyzeTrigger h2 := by
  unfold analyzeTrigger
  rw [if_neg (by omega), if_neg (by omega), hlast, hma60, hma200]
  cases h2.getLast? <;> cases rollMeanLast h2 60 <;>
    cases rollMeanLast h2 200 <;>
    simp [triggered, is_near_ma60, is_uptrend, percentGapToShortMA]

/-- A rolling mean that fits inside the right part of a concatenation
ignores the left part. -/
theorem rollMeanLast_append (l₁ l₂ : List ℚ) (w : ℕ) (hw : 1 ≤ w)
    (h : w ≤ l₂.length) :
    rollMeanLast (l₁ ++ l₂) w = rollMeanLast l₂ w := by
  unfold rollMeanLast
  have hdrop : (l₁ ++ l₂).drop ((l₁ ++ l₂).length - w) =
      l₂.drop (l₂.length - w) := by
    rw [List.length_append,
      show l₁.length + l₂.length - w = l₁.length + (l₂.length - w) from by
        omega,
      List.drop_append]
  rw [if_pos ⟨hw, by rw [List.length_append]; omega⟩, if_pos ⟨hw, h⟩, hdrop]

/-- The rolling mean over the full length of a constant list is its
value. -/
theorem rollMeanLast_replicate (n : ℕ) (a : ℚ) (hn : 1 ≤ n) :
    rollMeanLast (List.replicate n a) n = some a := by
  unfold rollMeanLast
  rw [if_pos ⟨hn, by simp⟩]
  rw [List.length_replicate, Nat.sub_self, List.drop_zero,
    List.sum_replicate, nsmul_eq_mul]
  congr 1
  have hne : (n:ℚ) ≠ 0 := by positivity
  field_simp

/-- Difference step of the embedded diff on a cons pair. -/
theorem deltas_cons_cons (a b : ℚ) (t : List ℚ) :
    deltas (a :: b :: t) = (b - a) :: deltas (b :: t) := rfl

/-- The diff of a constant series is constantly zero. -/
theorem deltas_replicate : ∀ (n : ℕ) (c : ℚ),
    deltas (List.replicate n c) = List.replicate (n - 1) 0
  | 0, _ => rfl
  | 1, _ => rfl
  | (n + 2), c => by
      rw [show List.replicate (n + 2) c = c :: c :: List.replicate n c from
        rfl, deltas_cons_cons,
        show (c :: List.replicate n c) = List.replicate (n + 1) c from rfl,
        deltas_replicate (n + 1) c]
      simp [List.replicate_succ]

/-- The diff of a constant prefix before an arbitrary tail. -/
theorem deltas_replicate_append (n : ℕ) (c : ℚ) (l : List ℚ) :
    deltas (List.replicate (n + 1) c ++ l) =
      List.replicate n 0 ++ deltas (c :: l) := by
  induction n with
  | zero => simp [List.replicate_succ]
  | succ m ih =>
      have e2 : List.replicate (m + 1) c ++ l =
          c :: (List.replicate m c ++ l) := by
        rw [List.replicate_succ, List.cons_append]
      have e1 : List.replicate (m + 1 + 1) c ++ l =
          c :: (List.replicate (m + 1) c ++ l) := by
        rw [List.replicate_succ, List.cons_append]
      rw [e1, e2, deltas_cons_cons, ← e2, ih]
      simp [List.replicate_succ]

/-- Last close of the flat witness history. -/
theorem histA_last : histA.getLast? = some 100 := by
  rw [histA, List.getLast?_replicate]
  norm_num

/-- Last close of the perturbed witness history. -/
theorem histB_last : histB.getLast? = some 100 := by
  rw [histB, List.getLast?_append]
  rfl

/-- MA60 of the flat witness history. -/
theorem histA_ma60 : rollMeanLast histA 60 = some 100 := by
  have hsplit : histA = List.replicate 140 (100:ℚ) ++ List.replicate 60 100 := by
    rw [histA, ← List.replicate_add]
  rw [hsplit, rollMeanLast_append _ _ 60 (by norm_num) (by simp),
    rollMeanLast_replicate 60 100 (by norm_num)]

/-- MA200 of the flat witness history. -/
theorem histA_ma200 : rollMeanLast histA 200 = some 100 := by
  rw [histA, rollMeanLast_replicate 200 100 (by norm_num)]

/-- MA60 of the perturbed witness history. -/
theorem histB_ma60 : rollMeanLast histB 60 = some 100 := by
  have hsplit : histB = List.replicate 140 (100:ℚ) ++
      (List.replicate 55 100 ++ [101, 99, 100, 100, 100]) := by
    rw [histB, ← List.append_assoc, ← List.replicate_add]
  rw [hsplit, rollMeanLast_append _ _ 60 (by norm_num) (by simp)]
  unfold rollMeanLast
  rw [if_pos ⟨by norm_num, by simp⟩]
  norm_num [List.sum_append, List.sum_replicate, nsmul_eq_mul]

/-- MA200 of the perturbed witness history. -/
theorem histB_ma200 : rollMeanLast histB 200 = some 100 := by
  unfold rollMeanLast
  rw [if_pos ⟨by norm_num, by simp [histB]⟩]
  rw [show histB.length - 200 = 0 from by simp [histB], List.drop_zero]
  norm_num [histB, List.sum_append, List.sum_replicate, nsmul_eq_mul]

/-- Gain series of the flat witness history. -/
theorem gainSeries_histA : gainSeries histA = List.replicate 200 0 := by
  have h1 : deltas histA = List.replicate 199 0 := by
    rw [histA, deltas_replicate]
  have h2 : histA = (100:ℚ) :: List.replicate 199 100 := by
    rw [histA, show (200:ℕ) = 199 + 1 from rfl, List.replicate_succ]
  rw [h2]
  show 0 :: (deltas ((100:ℚ) :: List.replicate 199 100)).map _ = _
  rw [← h2, h1, List.map_replicate]
  norm_num [show (200:ℕ) = 199 + 1 from rfl, List.replicate_succ]

/-- Loss series of the flat witness history. -/
theorem lossSeries_histA : lossSeries histA = List.replicate 200 0 := by
  have h1 : deltas histA = List.replicate 199 0 := by
    rw [histA, deltas_replicate]
  have h2 : histA = (100:ℚ) :: List.replicate 199 100 := by
    rw [histA, show (200:ℕ) = 199 + 1 from rfl, List.replicate_succ]
  rw [h2]
  show 0 :: (deltas ((100:ℚ) :: List.replicate 199 100)).map _ = _
  rw [← h2, h1, List.map_replicate]
  norm_num [show (200:ℕ) = 199 + 1 from rfl, List.replicate_succ]

/-- The RSI of the flat witness history is the float NaN. -/
theorem rsi_histA : calculate_rsi histA 14 = some PF.nan := by
  have hg : rollMeanLast (gainSeries histA) 14 = some 0 := by
    rw [gainSeries_histA,
      show List.replicate 200 (0:ℚ) =
        List.replicate 186 0 ++ List.replicate 14 0 from by
          rw [← List.replicate_add],
      rollMeanLast_append _ _ 14 (by norm_num) (by simp),
      rollMeanLast_replicate 14 0 (by norm_num)]
  have hl : rollMeanLast (lossSeries histA) 14 = some 0 := by
    rw [lossSeries_histA,
      show List.replicate 200 (0:ℚ) =
        List.replicate 186 0 ++ List.replicate 14 0 from by
          rw [← List.replicate_add],
      rollMeanLast_append _ _ 14 (by norm_num) (by simp),
      rollMeanLast_replicate 14 0 (by norm_num)]
  unfold calculate_rsi
  rw [hg, hl]
  simp [PF.div, PF.add, PF.sub]

/-- Diff of the perturbed witness history. -/
theorem deltas_histB :
    deltas histB = List.replicate 194 0 ++ [1, -2, 1, 0, 0] := by
  rw [histB, show (195:ℕ) = 194 + 1 from rfl, deltas_replicate_append]
  congr 1
  norm_num [deltas]

/-- Unfolding of the gain series on a non-empty list. -/
theorem gainSeries_cons (c : ℚ) (l : List ℚ) :
    gainSeries (c :: l) =
      0 :: (deltas (c :: l)).map (fun d => if 0 < d then d else 0) := rfl

/-- Unfolding of the loss series on a non-empty list. -/
theorem lossSeries_cons (c : ℚ) (l : List ℚ) :
    lossSeries (c :: l) =
      0 :: (deltas (c :: l)).map (fun d => if d < 0 then -d else 0) := rfl

/-- Gain series of the perturbed witness history. -/
theorem gainSeries_histB :
    gainSeries histB =
      List.replicate 186 0 ++ (List.replicate 9 0 ++ [1, 0, 1, 0, 0]) := by
  have h2 : histB = (100:ℚ) ::
      (List.replicate 194 100 ++ [101, 99, 100, 100, 100]) := by
    rw [histB, show (195:ℕ) = 194 + 1 from rfl, List.replicate_succ,
      List.cons_append]
  have hmap : (deltas histB).map (fun d => if 0 < d then d else 0) =
      List.replicate 194 0 ++ [1, 0, 1, 0, 0] := by
    rw [deltas_histB, List.map_append, List.map_replicate]
    congr 1
  rw [h2, gainSeries_cons, ← h2, hmap,
    show (0:ℚ) :: (List.replicate 194 (0:ℚ) ++ [1, 0, 1, 0, 0]) =
      ((0:ℚ) :: List.replicate 194 0) ++ [1, 0, 1, 0, 0] from rfl,
    show (0:ℚ) :: List.replicate 194 (0:ℚ) = List.replicate 195 0 from by
      rw [← List.replicate_succ],
    show List.replicate 195 (0:ℚ) =
      List.replicate 186 0 ++ List.replicate 9 0 from by
        rw [← List.replicate_add],
    List.append_assoc]

/-- Loss series of the perturbed witness history. -/
theorem lossSeries_histB :
    lossSeries histB =
      List.replicate 186 0 ++ (List.replicate 9 0 ++ [0, 2, 0, 0, 0]) := by
  have h2 : histB = (100:ℚ) ::
      (List.replicate 194 100 ++ [101, 99, 100, 100, 100]) := by
    rw [histB, show (195:ℕ) = 194 + 1 from rfl, List.replicate_succ,
      List.cons_append]
  have hmap : (deltas histB).map (fun d => if d < 0 then -d else 0) =
      List.replicate 194 0 ++ [0, 2, 0, 0, 0] := by
    rw [deltas_histB, List.map_append, List.map_replicate]
    congr 1
  rw [h2, lossSeries_cons, ← h2, hmap,
    show (0:ℚ) :: (List.replicate 194 (0:ℚ) ++ [0, 2, 0, 0, 0]) =
      ((0:ℚ) :: List.replicate 194 0) ++ [0, 2, 0, 0, 0] from rfl,
    show (0:ℚ) :: List.replicate 194 (0:ℚ) = List.replicate 195 0 from by
      rw [← List.replicate_succ],
    show List.replicate 195 (0:ℚ) =
      List.replicate 186 0 ++ List.replicate 9 0 from by
        rw [← List.replicate_add],
    List.append_assoc]

/-- The RSI of the perturbed witness history is the finite value 50. -/
theorem rsi_histB : calculate_rsi histB 14 = some (PF.fin 50) := by
  have hg : rollMeanLast (gainSeries histB) 14 = some (1 / 7) := by
    rw [gainSeries_histB, rollMeanLast_append _ _ 14 (by norm_num) (by simp)]
    unfold rollMeanLast
    rw [if_pos ⟨by norm_num, by simp⟩]
    norm_num [List.sum_append, List.sum_replicate]
  have hl : rollMeanLast (lossSeries histB) 14 = some (1 / 7) := by
    rw [lossSeries_histB, rollMeanLast_append _ _ 14 (by norm_num) (by simp)]
    unfold rollMeanLast
    rw [if_pos ⟨by norm_num, by simp⟩]
    norm_num [List.sum_append, List.sum_replicate]
  unfold calculate_rsi
  rw [hg, hl]
  norm_num [PF.div, PF.add, PF.sub]

/-- C9 witness: the flat and the perturbed 200-bar histories agree on
last close, MA60 and MA200, so the pipeline gives them the same trigger
outcome, even though their RSI values differ (NaN against 50). -/
theorem C9_witness :
    analyzeTrigger histA = analyzeTrigger histB
    ∧ calculate_rsi histA 14 ≠ calculate_rsi histB 14 := by
  refine ⟨C9_trigger_determined histA histB ?_ ?_ ?_ ?_ ?_, ?_⟩
  · simp [histA]
  · simp [histB]
  · rw [histA_last, histB_last]
  · rw [histA_ma60, histB_ma60]
  · rw [histA_ma200, histB_ma200]
  · rw [rsi_histA, rsi_histB]
    simp

end StockAgent
